import Mathlib

/-!
Verification development for the cantio-mobile-backend service
(src/main.py and src/proxy_server.py).

The Python source is shallowly embedded: every behavioural definition below
is a direct translation of a function (or a clearly delimited part of one)
of src/main.py.  External effects (yt-dlp extraction, pytubefix metadata,
the legacy search API) are abstracted as explicit capability parameters;
everything the service itself computes is translated faithfully, including
the truncated body of `is_music_platform` (src/main.py lines 183-185, where
the next line opens a new module-level function, so the function body is the
single assignment and the function returns None).
-/

namespace Cantio

/-! ## Python string primitives -/

/-- Python `str.lower()`: per-character ASCII lower-casing. -/
def pyLower (s : String) : String :=
  String.mk (s.data.map Char.toLower)

/-- Python `needle in hay` membership test on strings, as a list-of-chars
substring search. -/
def listContainsSub (needle : List Char) : List Char → Bool
  | [] => needle.isEmpty
  | c :: rest => needle.isPrefixOf (c :: rest) || listContainsSub needle rest

/-- Python `needle in hay` for `String`. -/
def strContains (hay needle : String) : Bool :=
  listContainsSub needle.data hay.data

/-- The characters Python `str.strip()` removes. -/
def pyIsSpace (c : Char) : Bool :=
  c = ' ' || c = '\t' || c = '\n' || c = '\r' || c = '\x0b' || c = '\x0c'

/-- Python `str.strip()` on a list of characters. -/
def pyStripChars (cs : List Char) : List Char :=
  ((cs.dropWhile pyIsSpace).reverse.dropWhile pyIsSpace).reverse

/-- Python `s.split(sep, 1)` when `sep` occurs in `s`: the pieces before and
after the first occurrence of `sep`; `none` when `sep` does not occur
(which is also the model of `sep in s` being false). -/
def splitOnceOn (sep : List Char) : List Char → Option (List Char × List Char)
  | [] => if sep.isPrefixOf ([] : List Char) then some ([], []) else none
  | c :: rest =>
    if sep.isPrefixOf (c :: rest) then some ([], (c :: rest).drop sep.length)
    else (splitOnceOn sep rest).map fun p => (c :: p.1, p.2)

/-- Python `s.replace(" ", "+")` as used on search queries. -/
def replaceSpacePlus (s : String) : String :=
  String.mk (s.data.map fun c => if c = ' ' then '+' else c)

/-- Truthiness of a Python value modelled as `Option String`
(`None` and `""` are falsy). -/
def pyStrTruthy : Option String → Bool
  | none => false
  | some s => !s.isEmpty

/-- Truthiness of a Python value modelled as `Option Bool` (`None` is falsy). -/
def optBoolTruthy : Option Bool → Bool
  | none => false
  | some b => b

/-! ## Data model: format candidates and extraction results -/

/-- One entry of the `formats` list returned by the extraction capability
(the fields of a yt-dlp format dict that src/main.py reads).  A missing
dict key is `none`; numeric bitrates are modelled as rationals. -/
structure FormatCandidate where
  ext : Option String := none
  acodec : Option String := none
  vcodec : Option String := none
  abr : Option ℚ := none
  tbr : Option ℚ := none
  url : Option String := none
deriving DecidableEq, Repr

/-- The fields of the info dict that src/main.py reads from a successful
extraction (one media entry). -/
structure InfoCore where
  url : Option String := none
  formats : List FormatCandidate := []
  ext : Option String := none
  title : Option String := none
  duration : Option ℚ := none
  thumbnail : Option String := none
  uploader : Option String := none
  extractor_key : Option String := none
deriving DecidableEq, Repr

/-- A full extraction info dict: either a plain media entry, or a search
result carrying an `entries` list (src/main.py lines 351-354). -/
structure Info where
  core : InfoCore := {}
  entries : Option (List InfoCore) := none
deriving DecidableEq, Repr

/-- Result dict built by `try_extract_stream` (src/main.py lines 425-434),
plus the two keys the `/stream` handler adds on a fallback success
(lines 282-283). -/
structure StreamResult where
  title : String
  stream_url : String
  platform : String
  duration : Option ℚ := none
  thumbnail : Option String := none
  uploader : Option String := none
  audio_format : String
  is_audio_only : Bool := true
  fallback_from_youtube : Bool := false
  original_query : Option String := none
deriving DecidableEq, Repr

/-! ## `is_music_platform` (src/main.py lines 183-185)

The function body is truncated in the source: after
`url_lower = url.lower()` the next source line opens a new module-level
function, so the body is that single assignment and the function returns
Python `None` on every input. -/

/-- src/main.py lines 183-185, exactly as written: the body computes
`url_lower` and then ends, returning `None`. -/
def isMusicPlatform (url : String) (extractorKey : Option String := none) : Option Bool :=
  let url_lower := pyLower url
  none

/-! ## Format selection (src/main.py lines 368-404) -/

/-- The preferred audio container extensions (src/main.py line 387). -/
def strictAudioExts : List String :=
  ["m4a", "mp3", "opus", "ogg", "webm", "wav", "aac", "flac"]

/-- The strict audio-only test of the first filtering pass
(src/main.py lines 373-388): real audio codec, no video codec, and a
preferred audio extension.  Dict reads use default `""`. -/
def strictPred (f : FormatCandidate) : Bool :=
  let vcodec := f.vcodec.getD ""
  let acodec := f.acodec.getD ""
  !(acodec == "none" || acodec == "") &&
  !(vcodec != "" && vcodec != "none") &&
  decide ((f.ext.getD "") ∈ strictAudioExts)

/-- First filtering pass (src/main.py lines 371-388). -/
def strictFilter (formats : List FormatCandidate) : List FormatCandidate :=
  formats.filter strictPred

/-- The fallback test (src/main.py lines 392-396):
`f.get("acodec") not in ["none", None, ""]` and
`f.get("vcodec") in ["none", None, ""]`.  This is the audio-only predicate
the code actually enforces on selected candidates. -/
def audioOnlyCode (f : FormatCandidate) : Bool :=
  decide (f.acodec ∉ ([some "none", none, some ""] : List (Option String))) &&
  decide (f.vcodec ∈ ([some "none", none, some ""] : List (Option String)))

/-- Fallback filtering pass (src/main.py lines 390-396). -/
def fallbackFilter (formats : List FormatCandidate) : List FormatCandidate :=
  formats.filter audioOnlyCode

/-- Python `x or y` on numbers modelled as `Option ℚ`: `None` and `0` are
falsy and fall through to the default. -/
def pyNumOr (a : Option ℚ) (d : ℚ) : ℚ :=
  match a with
  | none => d
  | some x => if x = 0 then d else x

/-- The sort key of src/main.py line 403:
`f.get("abr") or f.get("tbr") or 0`. -/
def formatKey (f : FormatCandidate) : ℚ :=
  pyNumOr f.abr (pyNumOr f.tbr 0)

/-- One step of Python `max(..., key=...)`: the running maximum is replaced
only on a strictly larger key, so the first maximal element wins. -/
def maxStep (key : FormatCandidate → ℚ) (best g : FormatCandidate) : FormatCandidate :=
  if key best < key g then g else best

/-- Python `max(l, key=key)` (`none` on the empty list, on which the source
never calls it). -/
def pyMax (key : FormatCandidate → ℚ) : List FormatCandidate → Option FormatCandidate
  | [] => none
  | f :: fs => some (fs.foldl (maxStep key) f)

/-- The candidate pool the final `max` runs over: the strict pass if it kept
anything, else the fallback pass (src/main.py lines 390-396). -/
def selectionPool (formats : List FormatCandidate) : List FormatCandidate :=
  let audio_only_formats := strictFilter formats
  if audio_only_formats.isEmpty then fallbackFilter formats else audio_only_formats

/-- The whole format-selection ladder of src/main.py lines 368-403:
strict pass, fallback pass, `None` if both are empty, else the bitrate
maximum (first occurrence wins ties). -/
def selectFormat (formats : List FormatCandidate) : Option FormatCandidate :=
  pyMax formatKey (selectionPool formats)

/-! ## `try_extract_stream` (src/main.py lines 310-451)

The yt-dlp call `ydl.extract_info(url, download=False)` is the external
extraction capability; it is abstracted as a function from the requested
URL and the attempt index to an outcome.  Everything else in the function
body is translated directly. -/

/-- Outcome of one `ydl.extract_info` call: a (possibly falsy) info dict,
or a raised exception carrying its message string. -/
inductive ExtractOutcome where
  | ok (info : Option Info)
  | err (msg : String)
deriving DecidableEq, Repr

/-- The extraction capability: URL and attempt index to outcome. -/
def ExtractCap := String → Nat → ExtractOutcome

/-- Result-dict construction of src/main.py lines 425-434. -/
def mkResult (c : InfoCore) (extractor_key stream_url format_ext : String) : StreamResult :=
  { title := c.title.getD "Unknown"
    stream_url := stream_url
    platform := extractor_key
    duration := c.duration
    thumbnail := c.thumbnail
    uploader := c.uploader
    audio_format := format_ext
    is_audio_only := true }

/-- Processing of a successful `extract_info` return
(src/main.py lines 347-434): falsy-info check, search-entries unwrap,
the `is_music_platform(url, extractor_key)` re-check, direct URL use or
format selection, and result construction. -/
def processInfo (url : String) (oinfo : Option Info) : Option StreamResult :=
  match oinfo with
  | none => none
  | some info =>
    let core? : Option InfoCore :=
      match info.entries with
      | some es => es.head?
      | none => some info.core
    match core? with
    | none => none
    | some c =>
      let extractor_key := c.extractor_key.getD "Unknown"
      if !(optBoolTruthy (isMusicPlatform url (some extractor_key))) then none
      else if pyStrTruthy c.url then
        some (mkResult c extractor_key (c.url.getD "") (c.ext.getD "unknown"))
      else
        match selectFormat c.formats with
        | none => none
        | some best =>
          if pyStrTruthy best.url then
            some (mkResult c extractor_key (best.url.getD "")
              (best.ext.getD (c.ext.getD "unknown")))
          else none

/-- The retry loop of src/main.py lines 314-451, by recursion on the number
of remaining attempts (`attempt` is the 0-based index handed to the
capability; the loop runs `attempt` over `range(max_retries)`).  Returns
the result together with the number of capability invocations performed.
On success-shaped outcomes the function returns from inside the loop
(1 invocation from here); on an exception it short-circuits when the
YouTube bot-detection signature matches (`"Sign in to confirm" in msg` —
case-sensitive — `or "bot" in msg.lower()`), else falls through to the
next attempt. -/
def tryExtractGo (cap : ExtractCap) (url : String) (is_youtube : Bool) :
    Nat → Nat → Option StreamResult × Nat
  | _, 0 => (none, 0)
  | attempt, remaining + 1 =>
    match cap url attempt with
    | .ok info => (processInfo url info, 1)
    | .err msg =>
      if is_youtube && (strContains msg "Sign in to confirm" || strContains (pyLower msg) "bot") then
        (none, 1)
      else
        let r := tryExtractGo cap url is_youtube (attempt + 1) remaining
        (r.1, r.2 + 1)

/-- `try_extract_stream(url, is_youtube, platform_name, max_retries)`
(src/main.py line 310; `platform_name` is never read in the body). -/
def tryExtractStream (cap : ExtractCap) (url : String) (is_youtube : Bool := false)
    (platform_name : Option String := none) (max_retries : Nat := 2) :
    Option StreamResult × Nat :=
  tryExtractGo cap url is_youtube 0 max_retries

/-! ## `extract_metadata_from_youtube` (src/main.py lines 82-152)

The pytubefix (`YouTube(url)`) and yt-dlp metadata calls are external;
they are abstracted as one capability whose outcome says which of the two
paths produced raw title/author data (or that both failed).  The
title-cleaning regex substitution and the artist/song split are the
service's own logic and are translated in full. -/

/-- Which external metadata path succeeded, with its raw data:
pytubefix/InnerTube (`yt.title`, `yt.author`, `yt.length`,
`yt.thumbnail_url`), the yt-dlp fallback (`title`, `uploader`), or
neither. -/
inductive MetaOutcome where
  | innertube (title author : String) (length : Option ℚ) (thumb : Option String)
  | ydl (title uploader : String)
  | fail
deriving DecidableEq, Repr

/-- The metadata dict returned by `extract_metadata_from_youtube`
(the keys read by its callers, plus the two only the InnerTube path sets). -/
structure TrackMetadata where
  title : String
  artist : String
  original_title : String
  search_query : String
  duration : Option ℚ := none
  thumbnail : Option String := none
deriving DecidableEq, Repr

/-- Case-insensitive literal match at the head of the input
(the literal is stored lower-case). -/
def litMatchCI : List Char → List Char → Bool
  | [], _ => true
  | _ :: _, [] => false
  | l :: ls, c :: cs => (c.toLower == l) && litMatchCI ls cs

/-- First literal alternative (in pattern order) matching at the head of
the input, returning its length. -/
def tryLits : List (List Char) → List Char → Option Nat
  | [], _ => none
  | l :: ls, cs => if litMatchCI l cs then some l.length else tryLits ls cs

/-- Length of the shortest `.*?c` continuation for the bracket/paren
alternatives: characters up to and including the closing character, failing
on a newline (Python `.` does not match a newline). -/
def closeLen (close : Char) : List Char → Option Nat
  | [] => none
  | c :: rest =>
    if c = close then some 1
    else if c = '\n' then none
    else (closeLen close rest).map (· + 1)

/-- Match of the noise pattern at the head of the input: the alternatives
of the regex in their written order — bracketed segment, parenthesized
segment, then the literal noise tokens — returning the match length. -/
def matchNoiseAt (lits : List (List Char)) (cs : List Char) : Option Nat :=
  match cs with
  | '[' :: rest =>
    match closeLen ']' rest with
    | some n => some (n + 1)
    | none => tryLits lits cs
  | '(' :: rest =>
    match closeLen ')' rest with
    | some n => some (n + 1)
    | none => tryLits lits cs
  | _ => tryLits lits cs

/-- `re.sub(pattern, "", s)`: scan left to right, delete each leftmost
non-overlapping match, copy un-matched characters.  Fuel-indexed for
structural recursion; one unit of fuel is spent per step and every step
consumes at least one character, so `fuel = length` suffices. -/
def resubNoiseFuel (lits : List (List Char)) : Nat → List Char → List Char
  | 0, cs => cs
  | _, [] => []
  | fuel + 1, c :: rest =>
    match matchNoiseAt lits (c :: rest) with
    | some (n + 1) => resubNoiseFuel lits fuel (rest.drop n)
    | _ => c :: resubNoiseFuel lits fuel rest

/-- Global deletion of the noise regex from a character list. -/
def resubNoise (lits : List (List Char)) (cs : List Char) : List Char :=
  resubNoiseFuel lits cs.length cs

/-- Literal alternatives of the InnerTube-path cleaning regex
(src/main.py line 96), lower-cased, in pattern order. -/
def noiseLitsFull : List (List Char) :=
  ["official".data, "video".data, "audio".data, "lyrics".data, "hd".data,
   "4k".data, "music video".data, "mv".data, "ft.".data, "feat.".data]

/-- Literal alternatives of the yt-dlp-fallback cleaning regex
(src/main.py line 140), lower-cased, in pattern order. -/
def noiseLitsShort : List (List Char) :=
  ["official".data, "video".data, "audio".data, "lyrics".data, "hd".data, "4k".data]

/-- `extract_metadata_from_youtube` (src/main.py lines 82-152) over the
abstract metadata capability: regex cleaning, optional `" - "` split into
artist and song, and search-query composition. -/
def extractMetadataFromYoutube (meta : String → MetaOutcome) (url : String) :
    Option TrackMetadata :=
  match meta url with
  | .innertube title author len thumb =>
    let clean_title := pyStripChars (resubNoise noiseLitsFull title.data)
    let parts := splitOnceOn " - ".data clean_title
    let artistSong : List Char × List Char :=
      match parts with
      | some p => (pyStripChars p.1, pyStripChars p.2)
      | none => (author.data, clean_title)
    some { title := String.mk artistSong.2
           artist := String.mk artistSong.1
           original_title := title
           search_query := String.mk (pyStripChars (artistSong.2 ++ ' ' :: artistSong.1))
           duration := len
           thumbnail := thumb }
  | .ydl title uploader =>
    let clean_title := pyStripChars (resubNoise noiseLitsShort title.data)
    some { title := String.mk clean_title
           artist := uploader
           original_title := title
           search_query := String.mk (pyStripChars (clean_title ++ ' ' :: uploader.data)) }
  | .fail => none

/-! ## The `/stream` handler (src/main.py lines 235-307) -/

/-- The alternative platforms searched when YouTube is blocked
(src/main.py lines 40-44). -/
def ALTERNATIVE_PLATFORMS : List (String × String) :=
  [("soundcloud", "https://soundcloud.com/search?q="),
   ("audiomack", "https://audiomack.com/search?q="),
   ("bandcamp", "https://bandcamp.com/search?q=")]

/-- The external capabilities the handler consumes. -/
structure Env where
  extract : ExtractCap
  meta : String → MetaOutcome

/-- What a request terminates with: a JSON result or an `HTTPException`
with a status code and detail string. -/
inductive Outcome where
  | ok (r : StreamResult)
  | httpError (status : Nat) (detail : String)
deriving DecidableEq, Repr

/-- The alternative-platform loop (src/main.py lines 260-294): build the
platform-scoped search URL, call `try_extract_stream` with
`is_youtube=False`, return the first truthy result tagged
`fallback_from_youtube` and `original_query`, and raise 503 when the
list is exhausted.  The second component counts extraction-capability
invocations. -/
def tryAlternatives (env : Env) (metadata : TrackMetadata) :
    List (String × String) → Outcome × Nat
  | [] =>
    (.httpError 503 ("YouTube blocked and couldn\x27t find \x27" ++
      metadata.original_title ++
      "\x27 on alternative platforms. Try SoundCloud/Bandcamp directly."), 0)
  | (platform_name, _search_base) :: rest =>
    let search_query := metadata.search_query
    let alternative_url : Option String :=
      if platform_name = "soundcloud" then some ("scsearch1:" ++ search_query)
      else if platform_name = "audiomack" then
        some ("https://audiomack.com/search?q=" ++ replaceSpacePlus search_query)
      else if platform_name = "bandcamp" then
        some ("https://bandcamp.com/search?q=" ++ replaceSpacePlus search_query)
      else none
    match alternative_url with
    | none => tryAlternatives env metadata rest
    | some au =>
      let r := tryExtractStream env.extract au false (some platform_name) 2
      match r.1 with
      | some res =>
        (.ok { res with fallback_from_youtube := true,
                        original_query := some metadata.original_title }, r.2)
      | none =>
        let rec' := tryAlternatives env metadata rest
        (rec'.1, r.2 + rec'.2)

/-- The body of the `/stream` handler after the platform pre-check
(src/main.py lines 245-307): YouTube-first extraction, metadata-driven
alternative search on a `None` result, and the non-YouTube direct path.
The second component counts extraction-capability invocations. -/
def streamBody (env : Env) (url : String) : Outcome × Nat :=
  let is_youtube := strContains url "youtube.com" || strContains url "youtu.be" ||
    strContains url "music.youtube.com"
  if is_youtube then
    let r := tryExtractStream env.extract url true none 2
    match r.1 with
    | some res => (.ok res, r.2)
    | none =>
      match extractMetadataFromYoutube env.meta url with
      | some metadata =>
        let alt := tryAlternatives env metadata ALTERNATIVE_PLATFORMS
        (alt.1, r.2 + alt.2)
      | none =>
        (.httpError 503
          "YouTube blocked and couldn\x27t extract metadata for alternative search.", r.2)
  else
    let r := tryExtractStream env.extract url false none 2
    match r.1 with
    | some res => (.ok res, r.2)
    | none => (.httpError 500 "Failed to extract stream", r.2)

/-- The full `/stream` handler (src/main.py lines 235-307): the
`is_music_platform` pre-check with its 400 rejection, then the body. -/
def stream (env : Env) (url : String) : Outcome × Nat :=
  if !(optBoolTruthy (isMusicPlatform url)) then
    (.httpError 400
      "URL must be from a music platform (YouTube, SoundCloud, Spotify, Bandcamp, etc.)", 0)
  else streamBody env url

/-! ## Spec-modelled definitions

Two pieces of the specified design have no implementation under src/:
the intended pre-check ladder of `is_music_platform` (its body is truncated
in src/main.py) and the `ProxyPool` component (absent from both source
files).  They are modelled from the spec's words, reusing the constants
that do appear in the source. -/

/-- The `MUSIC_PLATFORMS` allow-list constant (src/main.py lines 30-37). -/
def MUSIC_PLATFORMS : List String :=
  ["youtube", "youtubemusic", "soundcloud", "bandcamp", "spotify",
   "audiomack", "mixcloud", "applemusic", "deezer", "tidal", "generic"]

/-- Modelled from the spec: the §4.1 pre-check ladder that the truncated
`is_music_platform` body lacks — "match `url` case-insensitively against a
fixed allow-list of domains for recognized audio/music sources; else match
file extension against a fixed audio-extension allow-list; else match
substrings indicating an HLS/generic stream endpoint. No match ⇒
`Rejected`."  `true` means not Rejected.  The domain allow-list is the
source's unused `MUSIC_PLATFORMS` constant, the extension allow-list the
source's preferred audio extensions, and the stream hints are the `.m3u8`
and `stream` substring tests found in the orphaned code after the
truncation point (src/main.py lines 222-226). -/
def classifySpecPre (url : String) : Bool :=
  let url_lower := pyLower url
  MUSIC_PLATFORMS.any (fun d => strContains url_lower d) ||
  strictAudioExts.any (fun e => strContains url_lower ("." ++ e)) ||
  strContains url_lower ".m3u8" || strContains url_lower "stream"

/-- Modelled from the spec: the §4.3 `ProxyPool` size cap
("pool size ≤ configured maximum (5)"); the pool implementation is absent
from src/. -/
def PROXY_POOL_MAX : Nat := 5

/-- Modelled from the spec: insertion of a freshly discovered proxy into
the pool (§4.3) — the pool keeps distinct addresses (§3 invariant), and
"if the pool exceeds its cap, the oldest entry is evicted (FIFO)".  The
pool is a list in arrival order, oldest first. -/
def poolInsert (pool : List String) (addr : String) : List String :=
  if addr ∈ pool then pool
  else
    let p := pool ++ [addr]
    if PROXY_POOL_MAX < p.length then p.drop (p.length - PROXY_POOL_MAX) else p

/-- Modelled from the spec: one `ProxyPool` operation (§4.3).  `acquire`
carries the oracle for its random choices: whether the 0.7-probability
reuse branch is taken, which existing entry reuse picks, and what the
proxy-discovery capability returns. -/
inductive ProxyOp where
  | acquire (wantReuse : Bool) (idx : Nat) (discovered : Option String)
  | insert (addr : String)
  | reportFailure (addr : String)
deriving DecidableEq, Repr

/-- Modelled from the spec: the `ProxyPool` transition function (§4.3).
`acquire` returns a uniformly chosen existing entry when the reuse branch
is taken and the pool is non-empty; otherwise it inserts and returns the
discovered address, or returns `None` when discovery also fails.
`reportFailure(address)` "removes the address from the pool if present". -/
def poolStep (pool : List String) : ProxyOp → List String × Option String
  | .acquire wantReuse idx discovered =>
    if wantReuse ∧ pool ≠ [] then (pool, pool.get? (idx % pool.length))
    else
      match discovered with
      | some a => (poolInsert pool a, some a)
      | none => (pool, none)
  | .insert a => (poolInsert pool a, none)
  | .reportFailure a => (pool.erase a, none)

/-- Modelled from the spec: a run of `ProxyPool` operations from a given
pool, returning the final pool and the value produced by each operation
(`acquire` results; `insert`/`reportFailure` produce `none`). -/
def poolRun (pool : List String) : List ProxyOp → List String × List (Option String)
  | [] => (pool, [])
  | op :: ops =>
    let s := poolStep pool op
    let r := poolRun s.1 ops
    (r.1, s.2 :: r.2)

/-- Whether an operation can put `addr` (back) into the pool: an `acquire`
whose discovery oracle returns `addr`, or a direct insertion of `addr`. -/
def opIntroduces (addr : String) : ProxyOp → Bool
  | .acquire _ _ discovered => discovered == some addr
  | .insert a => a == addr
  | .reportFailure _ => false

/-- The §3 pool invariant: pairwise-distinct addresses, size within cap. -/
def poolInv (pool : List String) : Prop :=
  pool.Nodup ∧ pool.length ≤ PROXY_POOL_MAX

/-! ## Helper lemmas -/

/-- The post-extraction `is_music_platform(url, extractor_key)` re-check
(src/main.py lines 361-363) consults the truncated function, which returns
`None`; hence every successful extraction is discarded and `processInfo`
never produces a result. -/
theorem processInfo_eq_none (url : String) (oinfo : Option Info) :
    processInfo url oinfo = none := by
  cases oinfo with
  | none => rfl
  | some info =>
    simp only [processInfo]
    cases info.entries with
    | none => rfl
    | some es => cases es <;> rfl

/-- The retry loop never produces a result: success paths are killed by the
`processInfo` re-check and error paths return `None`. -/
theorem tryExtractGo_fst_none (cap : ExtractCap) (url : String) (is_youtube : Bool)
    (attempt remaining : Nat) :
    (tryExtractGo cap url is_youtube attempt remaining).1 = none := by
  induction remaining generalizing attempt with
  | zero => rfl
  | succ r ih =>
    simp only [tryExtractGo]
    cases cap url attempt with
    | ok info => simpa using processInfo_eq_none url info
    | err msg =>
      by_cases h : (is_youtube && (strContains msg "Sign in to confirm" ||
          strContains (pyLower msg) "bot")) = true
      · simp [h]
      · simp only [Bool.not_eq_true] at h
        simp [h, ih]

/-- `try_extract_stream` never returns a result, for any capability,
URL, routing flag, or attempt budget. -/
theorem tryExtractStream_fst_none (cap : ExtractCap) (url : String) (is_youtube : Bool)
    (platform_name : Option String) (max_retries : Nat) :
    (tryExtractStream cap url is_youtube platform_name max_retries).1 = none :=
  tryExtractGo_fst_none cap url is_youtube 0 max_retries

/-- The 503 detail string raised when the alternative-platform loop is
exhausted (src/main.py lines 291-294). -/
def exhaustedDetail (metadata : TrackMetadata) : String :=
  "YouTube blocked and couldn\x27t find \x27" ++ metadata.original_title ++
    "\x27 on alternative platforms. Try SoundCloud/Bandcamp directly."

/-- Since every extraction returns `None`, the alternative-platform loop
always falls through to its exhaustion 503. -/
theorem tryAlternatives_fst (env : Env) (metadata : TrackMetadata)
    (l : List (String × String)) :
    (tryAlternatives env metadata l).1 = .httpError 503 (exhaustedDetail metadata) := by
  induction l with
  | nil => rfl
  | cons hd tl ih =>
    obtain ⟨platform_name, search_base⟩ := hd
    simp only [tryAlternatives]
    by_cases h1 : platform_name = "soundcloud"
    · simp [h1, tryExtractStream_fst_none, ih]
    · by_cases h2 : platform_name = "audiomack"
      · simp [h1, h2, tryExtractStream_fst_none, ih]
      · by_cases h3 : platform_name = "bandcamp"
        · simp [h1, h2, h3, tryExtractStream_fst_none, ih]
        · simp [h1, h2, h3, ih]

/-- Shape of the YouTube-routing test of src/main.py line 245. -/
def isYoutubeUrl (url : String) : Bool :=
  strContains url "youtube.com" || strContains url "youtu.be" ||
    strContains url "music.youtube.com"

/-- For a non-YouTube-shaped URL the handler body always raises the 500
`Failed to extract stream` error, whatever the capabilities do. -/
theorem streamBody_nonYoutube (env : Env) (url : String)
    (h : isYoutubeUrl url = false) :
    (streamBody env url).1 = .httpError 500 "Failed to extract stream" := by
  simp only [isYoutubeUrl, Bool.or_eq_false_iff] at h
  simp only [streamBody, h.1.1, h.1.2, h.2, Bool.or_self, Bool.false_or, if_false]
  simp [tryExtractStream_fst_none]

/-- For a YouTube-shaped URL the handler body always ends in a 503: either
the metadata call fails, or the alternative loop is exhausted (every
extraction returns `None`). -/
theorem streamBody_youtube (env : Env) (url : String)
    (h : isYoutubeUrl url = true) :
    (streamBody env url).1 =
      match extractMetadataFromYoutube env.meta url with
      | some metadata => .httpError 503 (exhaustedDetail metadata)
      | none => .httpError 503
          "YouTube blocked and couldn\x27t extract metadata for alternative search." := by
  simp only [isYoutubeUrl] at h
  simp only [streamBody, h, if_true]
  rw [tryExtractStream_fst_none]
  cases extractMetadataFromYoutube env.meta url with
  | none => rfl
  | some metadata => simp [tryAlternatives_fst]

/-- Every candidate the strict pass keeps also passes the fallback
audio-only test (the strict pass additionally constrains the container
extension). -/
theorem strictPred_audioOnlyCode (f : FormatCandidate) (h : strictPred f = true) :
    audioOnlyCode f = true := by
  obtain ⟨ext, ac, vc, abr, tbr, url⟩ := f
  simp only [strictPred, audioOnlyCode] at *
  cases ac with
  | none => simp at h
  | some s =>
    cases vc with
    | none =>
      simp only [Option.getD_some, Option.getD_none] at h ⊢
      simp only [Bool.and_eq_true, Bool.not_eq_true', Bool.or_eq_false_iff,
        beq_eq_false_iff_ne, ne_eq] at h
      simp [h.1.1.1, h.1.1.2]
    | some t =>
      simp only [Option.getD_some] at h ⊢
      simp only [Bool.and_eq_true, Bool.not_eq_true', Bool.or_eq_false_iff,
        beq_eq_false_iff_ne, ne_eq, Bool.and_eq_false_iff, bne_eq_false_iff_eq] at h
      rcases h.1.2 with ht | ht <;> simp [h.1.1.1, h.1.1.2, ht]

/-- Every element of the selection pool passes the code's audio-only test. -/
theorem selectionPool_audioOnly (formats : List FormatCandidate) (f : FormatCandidate)
    (h : f ∈ selectionPool formats) : audioOnlyCode f = true := by
  simp only [selectionPool] at h
  by_cases he : (strictFilter formats).isEmpty
  · rw [if_pos he] at h
    exact (List.mem_filter.mp h).2
  · rw [if_neg he] at h
    exact strictPred_audioOnlyCode f (List.mem_filter.mp h).2

/-- If some list element passes the code's audio-only test, the selection
pool is non-empty. -/
theorem selectionPool_ne_nil (formats : List FormatCandidate)
    (h : ∃ f ∈ formats, audioOnlyCode f = true) : selectionPool formats ≠ [] := by
  obtain ⟨f, hf, haf⟩ := h
  have hfb : f ∈ fallbackFilter formats := List.mem_filter.mpr ⟨hf, haf⟩
  simp only [selectionPool]
  by_cases he : (strictFilter formats).isEmpty
  · rw [if_pos he]
    intro hc
    rw [hc] at hfb
    exact List.not_mem_nil f hfb
  · rw [if_neg he]
    simpa [List.isEmpty_iff] using he

/-- Python `max` as a left fold: the result splits the input as
`l1 ++ r :: l2` where everything before `r` has a strictly smaller key and
everything after has a key no larger — i.e. `r` is the first maximum. -/
theorem foldl_maxStep_split (key : FormatCandidate → ℚ) (fs : List FormatCandidate) :
    ∀ a : FormatCandidate, ∃ l1 l2,
      a :: fs = l1 ++ (fs.foldl (maxStep key) a) :: l2 ∧
      (∀ g ∈ l1, key g < key (fs.foldl (maxStep key) a)) ∧
      (∀ g ∈ l2, key g ≤ key (fs.foldl (maxStep key) a)) := by
  induction fs with
  | nil =>
    intro a
    exact ⟨[], [], rfl, by simp, by simp⟩
  | cons b fs ih =>
    intro a
    simp only [List.foldl_cons]
    obtain ⟨l1, l2, heq, h1, h2⟩ := ih (maxStep key a b)
    by_cases hab : key a < key b
    · -- the running maximum becomes `b`
      rw [maxStep, if_pos hab] at heq h1 h2 ⊢
      have hble : key b ≤ key (List.foldl (maxStep key) b fs) := by
        cases l1 with
        | nil =>
          have : b = List.foldl (maxStep key) b fs := by
            simpa using congrArg (fun l => l.head?) heq
          exact le_of_eq (congrArg key this)
        | cons x t =>
          have hx : b = x := by simpa using congrArg (fun l => l.head?) heq
          have hlt := h1 x (by simp)
          rw [← hx] at hlt
          exact le_of_lt hlt
      refine ⟨a :: l1, l2, ?_, ?_, h2⟩
      · simpa using heq
      · intro g hg
        rcases List.mem_cons.mp hg with rfl | hg
        · exact lt_of_lt_of_le hab hble
        · exact h1 g hg
    · -- the running maximum stays `a`
      rw [maxStep, if_neg hab] at heq h1 h2 ⊢
      cases l1 with
      | nil =>
        have ha : a = List.foldl (maxStep key) a fs := by
          simpa using congrArg (fun l => l.head?) heq
        have hfs : fs = l2 := by simpa using congrArg List.tail heq
        refine ⟨[], b :: fs, by simpa using ha, by simp, ?_⟩
        intro g hg
        rcases List.mem_cons.mp hg with rfl | hg
        · exact le_of_not_lt hab |>.trans (le_of_eq (congrArg key ha))
        · exact h2 g (hfs ▸ hg)
      | cons x t =>
        have hx : a = x := by simpa using congrArg (fun l => l.head?) heq
        subst hx
        have hfs : fs = t ++ List.foldl (maxStep key) a fs :: l2 := by
          simpa using congrArg List.tail heq
        have hxlt : key a < key (List.foldl (maxStep key) a fs) := h1 a (by simp)
        refine ⟨a :: b :: t, l2, ?_, ?_, h2⟩
        · rw [List.cons_append, List.cons_append, ← hfs]
        · intro g hg
          rcases List.mem_cons.mp hg with rfl | hg
          · exact hxlt
          · rcases List.mem_cons.mp hg with rfl | hg
            · exact lt_of_le_of_lt (le_of_not_lt hab) hxlt
            · exact h1 g (by simp [hg])

/-- `pyMax` on a non-empty list returns the first element of maximal key. -/
theorem pyMax_split (key : FormatCandidate → ℚ) (l : List FormatCandidate)
    (h : l ≠ []) : ∃ f l1 l2,
      pyMax key l = some f ∧ l = l1 ++ f :: l2 ∧
      (∀ g ∈ l1, key g < key f) ∧ (∀ g ∈ l2, key g ≤ key f) := by
  cases l with
  | nil => exact absurd rfl h
  | cons a fs =>
    obtain ⟨l1, l2, heq, h1, h2⟩ := foldl_maxStep_split key fs a
    exact ⟨fs.foldl (maxStep key) a, l1, l2, rfl, heq, h1, h2⟩

/-! ### ProxyPool lemmas -/

/-- Insertion preserves the pool invariant. -/
theorem poolInsert_inv (pool : List String) (a : String) (h : poolInv pool) :
    poolInv (poolInsert pool a) := by
  obtain ⟨hnd, hlen⟩ := h
  simp only [poolInsert]
  by_cases hmem : a ∈ pool
  · rw [if_pos hmem]
    exact ⟨hnd, hlen⟩
  · rw [if_neg hmem]
    have hnd2 : (pool ++ [a]).Nodup := by
      simp [List.nodup_append, hnd, hmem]
    by_cases hc : PROXY_POOL_MAX < (pool ++ [a]).length
    · rw [if_pos hc]
      constructor
      · exact hnd2.sublist (List.drop_sublist _ _)
      · simp only [List.length_drop]
        omega
    · rw [if_neg hc]
      exact ⟨hnd2, le_of_not_lt hc⟩

/-- Inserting a different address does not bring `addr` into the pool. -/
theorem poolInsert_not_mem (pool : List String) (a addr : String)
    (hmem : addr ∉ pool) (hne : addr ≠ a) : addr ∉ poolInsert pool a := by
  simp only [poolInsert]
  by_cases hm : a ∈ pool
  · rwa [if_pos hm]
  · rw [if_neg hm]
    have hmm : addr ∉ pool ++ [a] := by simp [hmem, hne]
    by_cases hc : PROXY_POOL_MAX < (pool ++ [a]).length
    · rw [if_pos hc]
      exact fun hd => hmm ((List.drop_sublist _ _).mem hd)
    · rwa [if_neg hc]

/-- Every pool operation preserves the pool invariant. -/
theorem poolStep_inv (pool : List String) (op : ProxyOp) (h : poolInv pool) :
    poolInv (poolStep pool op).1 := by
  cases op with
  | acquire wantReuse idx discovered =>
    simp only [poolStep]
    by_cases hr : wantReuse ∧ pool ≠ []
    · rwa [if_pos hr]
    · rw [if_neg hr]
      cases discovered with
      | some a => exact poolInsert_inv pool a h
      | none => exact h
  | insert a => exact poolInsert_inv pool a h
  | reportFailure a =>
    exact ⟨h.1.sublist (List.erase_sublist a pool),
      le_trans (List.erase_sublist a pool).length_le h.2⟩

/-- Any run of pool operations preserves the pool invariant. -/
theorem poolRun_inv (pool : List String) (ops : List ProxyOp) (h : poolInv pool) :
    poolInv (poolRun pool ops).1 := by
  induction ops generalizing pool with
  | nil => exact h
  | cons op ops ih => exact ih _ (poolStep_inv pool op h)

/-- If `addr` is not in the pool and an operation cannot re-introduce it,
then after the operation `addr` is still not in the pool and the operation
did not produce `addr`. -/
theorem poolStep_no_reintro (pool : List String) (op : ProxyOp) (addr : String)
    (hmem : addr ∉ pool) (hop : opIntroduces addr op = false) :
    addr ∉ (poolStep pool op).1 ∧ (poolStep pool op).2 ≠ some addr := by
  cases op with
  | acquire wantReuse idx discovered =>
    simp only [opIntroduces, beq_eq_false_iff_ne, ne_eq] at hop
    simp only [poolStep]
    by_cases hr : wantReuse ∧ pool ≠ []
    · rw [if_pos hr]
      refine ⟨hmem, fun hc => hmem ?_⟩
      exact List.get?_mem hc
    · rw [if_neg hr]
      cases discovered with
      | some a =>
        have hne : addr ≠ a := fun h => hop (by rw [h])
        exact ⟨poolInsert_not_mem pool a addr hmem hne, by simpa using fun h => hne h.symm⟩
      | none => exact ⟨hmem, by simp⟩
  | insert a =>
    simp only [opIntroduces, beq_eq_false_iff_ne, ne_eq] at hop
    have hne : addr ≠ a := fun h => hop h.symm
    exact ⟨poolInsert_not_mem pool a addr hmem hne, by simp [poolStep]⟩
  | reportFailure a =>
    refine ⟨fun hc => hmem ?_, by simp [poolStep]⟩
    exact (List.erase_sublist a pool).mem hc

/-- Once `addr` is out of the pool, a run of operations none of which can
re-introduce it keeps it out and never returns it from an `acquire`. -/
theorem poolRun_no_reintro (ops : List ProxyOp) (pool : List String) (addr : String)
    (hmem : addr ∉ pool) (hops : ∀ op ∈ ops, opIntroduces addr op = false) :
    addr ∉ (poolRun pool ops).1 ∧ ∀ r ∈ (poolRun pool ops).2, r ≠ some addr := by
  induction ops generalizing pool with
  | nil => exact ⟨hmem, by simp [poolRun]⟩
  | cons op ops ih =>
    obtain ⟨h1, h2⟩ := poolStep_no_reintro pool op addr hmem (hops op (by simp))
    obtain ⟨h3, h4⟩ := ih (poolStep pool op).1 h1 (fun o ho => hops o (by simp [ho]))
    refine ⟨h3, ?_⟩
    intro r hr
    simp only [poolRun, List.mem_cons] at hr
    rcases hr with rfl | hr
    · exact h2
    · exact h4 r hr

/-- Splitting a run at a list append. -/
theorem poolRun_append (pool : List String) (l1 l2 : List ProxyOp) :
    poolRun pool (l1 ++ l2) =
      ((poolRun (poolRun pool l1).1 l2).1,
        (poolRun pool l1).2 ++ (poolRun (poolRun pool l1).1 l2).2) := by
  induction l1 generalizing pool with
  | nil => simp [poolRun]
  | cons op ops ih => simp [poolRun, ih]

/-- A run produces one output per operation. -/
theorem poolRun_results_length (pool : List String) (ops : List ProxyOp) :
    (poolRun pool ops).2.length = ops.length := by
  induction ops generalizing pool with
  | nil => rfl
  | cons op ops ih => simp [poolRun, ih]

/-! ## Concrete inputs used by the claim theorems -/

/-- An environment whose capabilities are never consulted on the paths under
test (extraction always errs, metadata always fails). -/
def envNull : Env := { extract := fun _ _ => .err "unreachable", meta := fun _ => .fail }

/-- The 400 detail string of the pre-check rejection (src/main.py line 242). -/
def rejectDetail : String :=
  "URL must be from a music platform (YouTube, SoundCloud, Spotify, Bandcamp, etc.)"

/-- Audio-only candidate with a preferred container extension, bitrate 64. -/
def fmtPreferredExt : FormatCandidate :=
  { ext := some "m4a", acodec := some "aac", vcodec := some "none", abr := some 64 }

/-- Audio-only candidate with a non-preferred container extension,
bitrate 128. -/
def fmtOtherExt : FormatCandidate :=
  { ext := some "mka", acodec := some "aac", vcodec := some "none", abr := some 128 }

/-- The format list of the spec's pure-audio scenario (extensions are not
given there, so the candidates carry none). -/
def scenarioFormats : List FormatCandidate :=
  [{ acodec := some "opus", vcodec := some "none", abr := some 70 },
   { acodec := some "aac", vcodec := some "none", abr := some 128 },
   { acodec := some "aac", vcodec := some "h264", abr := some 192 }]

/-- An audio+video container candidate (real audio codec, real video codec). -/
def fmtAudioVideo : FormatCandidate :=
  { ext := some "mp4", acodec := some "aac", vcodec := some "h264", abr := some 128 }

/-- A candidate with no audio at all (`acodec = "none"`). -/
def fmtNoAudio : FormatCandidate :=
  { ext := some "mp4", acodec := some "none", vcodec := some "none", abr := some 100 }

/-- An extraction success whose only format has no audio and which carries
no direct resolved URL. -/
def infoNoAudio : Info :=
  { core := { formats := [fmtNoAudio], extractor_key := some "Soundcloud",
              title := some "T" } }

/-- Environment whose extraction always succeeds with `infoNoAudio`. -/
def envNoAudio : Env := { extract := fun _ _ => .ok (some infoNoAudio), meta := fun _ => .fail }

/-- Capability failing with the sign-in phrase in upper case (matches the
spec's case-insensitive signature but not the code's case-sensitive one,
and its lower-casing contains no `"bot"`). -/
def sigCapUpper : ExtractCap := fun _ _ => .err "SIGN IN TO CONFIRM YOUR AGE"

/-- Capability failing with the exact case-sensitive sign-in phrase. -/
def sigCapExact : ExtractCap := fun _ _ => .err "Sign in to confirm this action"

/-- Capability failing with an unclassified message. -/
def errCapBoom : ExtractCap := fun _ _ => .err "boom"

/-- Capability failing with the `Unsupported URL` signature on every attempt. -/
def unsupportedCap : ExtractCap := fun _ _ => .err "Unsupported URL: https://example.com/watch"

/-- Environment around `unsupportedCap`. -/
def envUnsupported : Env := { extract := unsupportedCap, meta := fun _ => .fail }

/-- A fully successful extraction an alternate platform could return:
direct resolved URL, no format list needed. -/
def goodAltInfo : Info :=
  { core := { url := some "https://cdn.example/audio.mp3", ext := some "mp3",
              title := some "Song", extractor_key := some "Soundcloud" } }

/-- Blocked-primary scenario environment: the YouTube URL errs with the
bot-detection signature, every other URL (the alternate-platform searches)
extracts successfully, and metadata recovery returns
`{title: "Song [Official Video]", uploader: "Artist"}`. -/
def envBlockedPrimary : Env :=
  { extract := fun u _ =>
      if u = "https://www.youtube.com/watch?v=abc" then
        .err "Sign in to confirm that you are not a bot"
      else .ok (some goodAltInfo)
    meta := fun _ => .innertube "Song [Official Video]" "Artist" none none }

/-- An unambiguously audio-only candidate with a stream URL. -/
def fmtGoodAudio : FormatCandidate :=
  { ext := some "m4a", acodec := some "opus", vcodec := some "none", abr := some 160,
    url := some "https://cdn.example/a.m4a" }

/-- A candidate has a real video codec when its `vcodec` is a non-empty
string other than the `"none"` sentinel. -/
def realVideoCodec (f : FormatCandidate) : Bool :=
  decide (f.vcodec ∉ ([some "none", none, some ""] : List (Option String)))

/-- A real video codec fails the strict pass. -/
theorem realVideo_not_strict (f : FormatCandidate) (h : realVideoCodec f = true) :
    strictPred f = false := by
  obtain ⟨ext, ac, vc, abr, tbr, url⟩ := f
  simp only [realVideoCodec, decide_eq_true_eq, List.mem_cons, List.not_mem_nil,
    or_false, not_or] at h
  cases vc with
  | none => simp at h
  | some t =>
    have ht1 : t ≠ "none" := fun hc => h.1 (by rw [hc])
    have ht2 : t ≠ "" := fun hc => h.2.2 (by rw [hc])
    simp [strictPred, ht1, ht2]

/-- A real video codec fails the fallback audio-only test. -/
theorem realVideo_not_audioOnly (f : FormatCandidate) (h : realVideoCodec f = true) :
    audioOnlyCode f = false := by
  simp only [realVideoCodec, decide_eq_true_eq] at h
  simp [audioOnlyCode, h]

/-- `acodec = "none"` fails the strict pass. -/
theorem acodecNone_not_strict (f : FormatCandidate) (h : f.acodec = some "none") :
    strictPred f = false := by
  simp [strictPred, h]

/-- `acodec = "none"` fails the fallback audio-only test. -/
theorem acodecNone_not_audioOnly (f : FormatCandidate) (h : f.acodec = some "none") :
    audioOnlyCode f = false := by
  simp [audioOnlyCode, h]

/-- `pyMax` only returns elements of its input list. -/
theorem pyMax_mem (key : FormatCandidate → ℚ) (l : List FormatCandidate)
    (f : FormatCandidate) (h : pyMax key l = some f) : f ∈ l := by
  cases l with
  | nil => cases h
  | cons a fs =>
    obtain ⟨g, l1, l2, hg, heq, _, _⟩ := pyMax_split key (a :: fs) (by simp)
    rw [h] at hg
    injection hg with hfg
    rw [heq, hfg]
    simp

/-! ## Claim theorems -/

/-- Claim C1: for every input URL, `is_music_platform` returns `None` (its
body is truncated to the single assignment `url_lower = url.lower()`), so
every `GET /stream` request — whatever the URL and whatever the external
capabilities would do — fails the pre-check and is answered with HTTP 400,
with zero extraction-capability invocations. -/
theorem claim1_precheck_rejects_everything (env : Env) (url : String) (ek : Option String) :
    stream env url = (.httpError 400 rejectDetail, 0) ∧ isMusicPlatform url ek = none :=
  ⟨rfl, rfl⟩

/-- Claim C2 (code bug, evaluated at the failing input): the spec's
pre-check ladder accepts `https://soundcloud.com/artist/track` (allow-listed
music domain), but the truncated `is_music_platform` returns `None` on it,
so the handler rejects it with the 400 validation error before any network
call (zero capability invocations). -/
theorem claim2_ladder_vs_truncation :
    isMusicPlatform "https://soundcloud.com/artist/track" = none ∧
    stream envNull "https://soundcloud.com/artist/track" = (.httpError 400 rejectDetail, 0) ∧
    classifySpecPre "https://soundcloud.com/artist/track" = true := by
  refine ⟨rfl, rfl, ?_⟩
  decide

/-- Claim C3 counterexample: on
`[{ext:"m4a", aac/none, abr 64}, {ext:"mka", aac/none, abr 128}]` both
candidates are audio-only, yet the selection returns the abr-64 one: the
strict pass also filters on a preferred-extension list, so the maximum is
not taken over all audio-only candidates as the claim states. -/
theorem claim3_counterexample :
    selectFormat [fmtPreferredExt, fmtOtherExt] = some fmtPreferredExt ∧
    fmtPreferredExt.abr = some 64 ∧
    fmtOtherExt ∈ [fmtPreferredExt, fmtOtherExt] ∧
    audioOnlyCode fmtOtherExt = true ∧
    formatKey fmtPreferredExt < formatKey fmtOtherExt := by
  refine ⟨?_, rfl, by simp, by decide, by decide⟩
  decide

/-- Claim C3 (amended): whenever the list holds at least one candidate
passing the code's audio-only test (real audio codec, no video codec),
selection returns such a candidate, namely the first maximum of
`abr`-else-`tbr`-else-`0` (Python truthiness: a present-but-zero bitrate
also falls through) over the selection pool — the audio-only candidates
with preferred extensions when any exist, else all audio-only candidates;
on the spec's pure-audio scenario the selected candidate has abr 128. -/
theorem claim3_select_best_of_pool :
    (∀ formats : List FormatCandidate, (∃ f ∈ formats, audioOnlyCode f = true) →
      ∃ f l1 l2, selectFormat formats = some f ∧ audioOnlyCode f = true ∧
        selectionPool formats = l1 ++ f :: l2 ∧
        (∀ g ∈ l1, formatKey g < formatKey f) ∧
        (∀ g ∈ l2, formatKey g ≤ formatKey f)) ∧
    (selectFormat scenarioFormats).map (fun f => f.abr) = some (some 128) := by
  constructor
  · intro formats h
    obtain ⟨f, l1, l2, hmax, heq, h1, h2⟩ :=
      pyMax_split formatKey (selectionPool formats) (selectionPool_ne_nil formats h)
    have hf : f ∈ selectionPool formats := by
      rw [heq]
      simp
    exact ⟨f, l1, l2, hmax, selectionPool_audioOnly formats f hf, heq, h1, h2⟩
  · decide

/-- Witness for the amended C3 theorem at the spec's scenario list. -/
theorem claim3_witness :
    ∃ f l1 l2, selectFormat scenarioFormats = some f ∧ audioOnlyCode f = true ∧
      selectionPool scenarioFormats = l1 ++ f :: l2 ∧
      (∀ g ∈ l1, formatKey g < formatKey f) ∧
      (∀ g ∈ l2, formatKey g ≤ formatKey f) :=
  claim3_select_best_of_pool.1 scenarioFormats
    ⟨{ acodec := some "opus", vcodec := some "none", abr := some 70 }, by simp [scenarioFormats],
      by decide⟩

/-- Claim C4 counterexample: a list whose only audio-bearing candidate also
carries a real video codec makes the strict pass empty, and the fallback
pass — which the claim says keeps any candidate with a real audio codec
regardless of video codec — is empty too: selection returns `None`
instead of the audio+video container. -/
theorem claim4_counterexample :
    strictFilter [fmtAudioVideo] = [] ∧
    fallbackFilter [fmtAudioVideo] = [] ∧
    selectFormat [fmtAudioVideo] = none ∧
    fmtAudioVideo.acodec = some "aac" ∧ fmtAudioVideo.vcodec = some "h264" := by
  refine ⟨?_, ?_, ?_, rfl, rfl⟩ <;> decide

/-- Claim C4 (amended): when the strict pass is empty, the code relaxes
only the preferred-extension restriction — the fallback pass still demands
no real video codec — so a list all of whose candidates carry a real video
codec selects `None`, and in general the relaxed selection is the bitrate
maximum over the no-video fallback pass. -/
theorem claim4_fallback_still_audio_only :
    (∀ formats : List FormatCandidate, (∀ f ∈ formats, realVideoCodec f = true) →
      selectFormat formats = none) ∧
    (∀ formats : List FormatCandidate, strictFilter formats = [] →
      selectFormat formats = pyMax formatKey (fallbackFilter formats)) := by
  constructor
  · intro formats h
    have hs : strictFilter formats = [] := by
      simp only [strictFilter, List.filter_eq_nil_iff]
      intro f hf
      simp [realVideo_not_strict f (h f hf)]
    have hfb : fallbackFilter formats = [] := by
      simp only [fallbackFilter, List.filter_eq_nil_iff]
      intro f hf
      simp [realVideo_not_audioOnly f (h f hf)]
    simp [selectFormat, selectionPool, hs, hfb, pyMax]
  · intro formats h
    simp [selectFormat, selectionPool, h]

/-- Witness for the amended C4 theorem at the audio+video-only list. -/
theorem claim4_witness :
    selectFormat [fmtAudioVideo] = none ∧
    selectFormat [fmtAudioVideo] = pyMax formatKey (fallbackFilter [fmtAudioVideo]) :=
  ⟨claim4_fallback_still_audio_only.1 [fmtAudioVideo] (by decide),
   claim4_fallback_still_audio_only.2 [fmtAudioVideo] (by decide)⟩

/-- Claim C5 counterexample: an error message carrying the sign-in phrase
in upper case matches the claim's case-insensitive signature, yet the code
(whose test `"Sign in to confirm" in msg` is case-sensitive, and whose
lower-cased message contains no `"bot"`) does not classify it as blocked:
it retries and performs 2 extraction attempts instead of stopping at 1. -/
theorem claim5_counterexample :
    tryExtractStream sigCapUpper "https://www.youtube.com/watch?v=abc" true none 2 =
      (none, 2) ∧
    strContains (pyLower "SIGN IN TO CONFIRM YOUR AGE") (pyLower "Sign in to confirm") = true ∧
    strContains "SIGN IN TO CONFIRM YOUR AGE" "Sign in to confirm" = false ∧
    strContains (pyLower "SIGN IN TO CONFIRM YOUR AGE") "bot" = false := by
  refine ⟨?_, ?_, ?_, ?_⟩ <;> decide

/-- Claim C5 (amended): the blocked classification matches
`"Sign in to confirm"` case-sensitively or `"bot"` case-insensitively, and
only on attempts routed as YouTube: on a match the loop stops after that
single extraction invocation with `None` (the orchestrator then enters the
alternative-platform chain).  Non-YouTube attempts never consult the
signature: a failing capability is retried to the budget of 2 invocations
and the handler surfaces the generic 500 error, with no blocked-specific
error and no fallback. -/
theorem claim5_blocked_classification :
    (∀ (cap : ExtractCap) (url : String) (pn : Option String) (mr : Nat) (msg : String),
      cap url 0 = .err msg →
      (strContains msg "Sign in to confirm" || strContains (pyLower msg) "bot") = true →
      tryExtractStream cap url true pn (mr + 1) = (none, 1)) ∧
    (∀ (cap : ExtractCap) (url : String) (pn : Option String),
      (∀ i, ∃ m, cap url i = .err m) →
      tryExtractStream cap url false pn 2 = (none, 2)) ∧
    (∀ (env : Env) (url : String), isYoutubeUrl url = false →
      (streamBody env url).1 = .httpError 500 "Failed to extract stream") := by
  refine ⟨?_, ?_, streamBody_nonYoutube⟩
  · intro cap url pn mr msg hcap hsig
    simp [tryExtractStream, tryExtractGo, hcap, hsig]
  · intro cap url pn h
    obtain ⟨m0, h0⟩ := h 0
    obtain ⟨m1, h1⟩ := h 1
    simp [tryExtractStream, tryExtractGo, h0, h1]

/-- Witness for the amended C5 theorem: exact-case sign-in phrase on a
YouTube route stops after one invocation; a plain failure on a non-YouTube
route is retried twice and surfaces the 500. -/
theorem claim5_witness :
    tryExtractStream sigCapExact "https://youtu.be/x" true none 2 = (none, 1) ∧
    tryExtractStream errCapBoom "https://soundcloud.com/a" false none 2 = (none, 2) ∧
    (streamBody envNull "https://soundcloud.com/a").1 =
      .httpError 500 "Failed to extract stream" :=
  ⟨claim5_blocked_classification.1 sigCapExact "https://youtu.be/x" none 1
      "Sign in to confirm this action" rfl (by decide),
   claim5_blocked_classification.2.1 errCapBoom "https://soundcloud.com/a" none
      (fun i => ⟨"boom", rfl⟩),
   claim5_blocked_classification.2.2 envNull "https://soundcloud.com/a" (by decide)⟩

/-- Claim C6 counterexample: with every attempt failing with an
`Unsupported URL` message, the handler performs 2 capability invocations
(one retry) and answers 500, not the claimed 400 validation error after
exactly one invocation — the code never inspects the message for this
signature. -/
theorem claim6_counterexample :
    strContains "Unsupported URL: https://example.com/watch" "Unsupported URL" = true ∧
    streamBody envUnsupported "https://example.com/watch" =
      (.httpError 500 "Failed to extract stream", 2) := by
  refine ⟨?_, ?_⟩ <;> decide

/-- Claim C6 (amended): an `Unsupported URL` failure is treated like any
other failure: on a non-YouTube route the capability is invoked the full
budget of 2 times and the generic 500 is surfaced (no 400); on a YouTube
route the handler always ends in some 503 of the fallback chain. -/
theorem claim6_unsupported_not_fatal :
    (∀ (cap : ExtractCap) (url : String) (pn : Option String),
      (∀ i, ∃ m, cap url i = .err m ∧ strContains m "Unsupported URL" = true) →
      tryExtractStream cap url false pn 2 = (none, 2)) ∧
    (∀ (env : Env) (url : String), isYoutubeUrl url = false →
      (streamBody env url).1 = .httpError 500 "Failed to extract stream") ∧
    (∀ (env : Env) (url : String), isYoutubeUrl url = true →
      ∃ d, (streamBody env url).1 = .httpError 503 d) := by
  refine ⟨?_, streamBody_nonYoutube, ?_⟩
  · intro cap url pn h
    obtain ⟨m0, h0, _⟩ := h 0
    obtain ⟨m1, h1, _⟩ := h 1
    simp [tryExtractStream, tryExtractGo, h0, h1]
  · intro env url h
    rw [streamBody_youtube env url h]
    cases extractMetadataFromYoutube env.meta url with
    | none => exact ⟨_, rfl⟩
    | some metadata => exact ⟨_, rfl⟩

/-- Witness for the amended C6 theorem at the `Unsupported URL` capability. -/
theorem claim6_witness :
    tryExtractStream unsupportedCap "https://example.com/watch" false none 2 = (none, 2) ∧
    (streamBody envUnsupported "https://example.com/watch").1 =
      .httpError 500 "Failed to extract stream" ∧
    ∃ d, (streamBody envUnsupported "https://www.youtube.com/watch?v=abc").1 =
      .httpError 503 d :=
  ⟨claim6_unsupported_not_fatal.1 unsupportedCap "https://example.com/watch" none
      (fun i => ⟨"Unsupported URL: https://example.com/watch", rfl, by decide⟩),
   claim6_unsupported_not_fatal.2.1 envUnsupported "https://example.com/watch" (by decide),
   claim6_unsupported_not_fatal.2.2 envUnsupported "https://www.youtube.com/watch?v=abc"
      (by decide)⟩

/-- Claim C7 counterexample: extraction succeeds with a format list whose
only entry has audio codec `"none"` and no direct URL; the format selector
does return `None`, but the handler answers 500 `Failed to extract stream`
(there is no 404 anywhere in the handler), refuting the claimed NotFound
status. -/
theorem claim7_counterexample :
    selectFormat [fmtNoAudio] = none ∧
    streamBody envNoAudio "https://soundcloud.com/a/b" =
      (.httpError 500 "Failed to extract stream", 1) := by
  refine ⟨?_, ?_⟩ <;> decide

/-- Claim C7 (amended): on a format list all of whose entries have audio
codec `"none"`, the selector returns `None`; the handler then surfaces the
generic 500 `Failed to extract stream` for non-YouTube URLs (the result is
in fact discarded even before selection by the truncated platform
re-check), not a 404. -/
theorem claim7_no_audio_not_404 :
    (∀ formats : List FormatCandidate, (∀ f ∈ formats, f.acodec = some "none") →
      selectFormat formats = none) ∧
    (∀ (env : Env) (url : String), isYoutubeUrl url = false →
      (streamBody env url).1 = .httpError 500 "Failed to extract stream") := by
  refine ⟨?_, streamBody_nonYoutube⟩
  intro formats h
  have hs : strictFilter formats = [] := by
    simp only [strictFilter, List.filter_eq_nil_iff]
    intro f hf
    simp [acodecNone_not_strict f (h f hf)]
  have hfb : fallbackFilter formats = [] := by
    simp only [fallbackFilter, List.filter_eq_nil_iff]
    intro f hf
    simp [acodecNone_not_audioOnly f (h f hf)]
  simp [selectFormat, selectionPool, hs, hfb, pyMax]

/-- Witness for the amended C7 theorem at the all-`"none"` list. -/
theorem claim7_witness :
    selectFormat [fmtNoAudio] = none ∧
    (streamBody envNoAudio "https://soundcloud.com/a/b").1 =
      .httpError 500 "Failed to extract stream" :=
  ⟨claim7_no_audio_not_404.1 [fmtNoAudio] (by decide),
   claim7_no_audio_not_404.2 envNoAudio "https://soundcloud.com/a/b" (by decide)⟩

/-- Claim C8: a stream URL can only ever come from the direct resolved URL
or from a candidate that passed the code's audio-only predicate: any
candidate the format selection returns passes that predicate (no real
video codec), and — because the truncated platform re-check discards every
successful extraction — `try_extract_stream` in fact returns no result at
all, so in particular no result whose URL comes from a video-bearing
candidate is ever returned. -/
theorem claim8_stream_url_provenance :
    (∀ (formats : List FormatCandidate) (f : FormatCandidate),
      selectFormat formats = some f → audioOnlyCode f = true) ∧
    (∀ (cap : ExtractCap) (url : String) (yt : Bool) (pn : Option String) (mr : Nat),
      (tryExtractStream cap url yt pn mr).1 = none) := by
  refine ⟨?_, tryExtractStream_fst_none⟩
  intro formats f h
  exact selectionPool_audioOnly formats f (pyMax_mem formatKey (selectionPool formats) f h)

/-- Witness for C8: a selected candidate passes the audio-only predicate. -/
theorem claim8_witness :
    audioOnlyCode fmtGoodAudio = true ∧
    (tryExtractStream envNull.extract "https://soundcloud.com/a" false none 2).1 = none :=
  ⟨claim8_stream_url_provenance.1 [fmtGoodAudio] fmtGoodAudio (by decide),
   claim8_stream_url_provenance.2 envNull.extract "https://soundcloud.com/a" false none 2⟩

/-- Claim C9 (code bug, evaluated at the failing input): with the primary
URL blocked by the bot signature, metadata
`{title: "Song [Official Video]", uploader: "Artist"}` normalizes to the
search query `"Song Artist"` as the claim states; but even though the
soundcloud alternate search extracts successfully (a direct resolved URL),
the truncated `is_music_platform` re-check discards it, every alternate
yields `None`, and the handler raises 503 instead of returning the first
alternate success marked as a fallback — and the deployed handler never
even reaches this code, rejecting the request with 400 up front. -/
theorem claim9_fallback_never_succeeds :
    extractMetadataFromYoutube envBlockedPrimary.meta "https://www.youtube.com/watch?v=abc" =
      some { title := "Song", artist := "Artist",
             original_title := "Song [Official Video]", search_query := "Song Artist" } ∧
    envBlockedPrimary.extract "scsearch1:Song Artist" 0 = .ok (some goodAltInfo) ∧
    tryExtractStream envBlockedPrimary.extract "scsearch1:Song Artist" false
      (some "soundcloud") 2 = (none, 1) ∧
    streamBody envBlockedPrimary "https://www.youtube.com/watch?v=abc" =
      (.httpError 503 ("YouTube blocked and couldn\x27t find \x27Song [Official Video]\x27" ++
        " on alternative platforms. Try SoundCloud/Bandcamp directly."), 4) ∧
    stream envBlockedPrimary "https://www.youtube.com/watch?v=abc" =
      (.httpError 400 rejectDetail, 0) := by
  refine ⟨?_, ?_, ?_, ?_, rfl⟩ <;> decide

/-- Claim C10: the spec-modelled proxy pool keeps pairwise-distinct
addresses and never exceeds the cap of 5 after any operation sequence; on
overflow the oldest entry is evicted first; and once `reportFailure(addr)`
has run, no later `acquire` returns `addr` unless an operation re-discovers
or re-inserts it. -/
theorem claim10_proxy_pool :
    (∀ ops : List ProxyOp,
      ((poolRun [] ops).1).Nodup ∧ ((poolRun [] ops).1).length ≤ PROXY_POOL_MAX) ∧
    (∀ (pool : List String) (a : String), pool.length = PROXY_POOL_MAX → a ∉ pool →
      poolInsert pool a = pool.drop 1 ++ [a]) ∧
    (∀ (ops1 : List ProxyOp) (addr : String) (ops2 : List ProxyOp),
      (∀ op ∈ ops2, opIntroduces addr op = false) →
      ∀ r ∈ (poolRun [] (ops1 ++ ProxyOp.reportFailure addr :: ops2)).2.drop
          (ops1.length + 1), r ≠ some addr) := by
  refine ⟨?_, ?_, ?_⟩
  · intro ops
    exact poolRun_inv [] ops ⟨List.nodup_nil, by simp [PROXY_POOL_MAX]⟩
  · intro pool a hlen hmem
    simp only [poolInsert, if_neg hmem]
    have hlt : PROXY_POOL_MAX < (pool ++ [a]).length := by simp [hlen]
    rw [if_pos hlt]
    have h1 : (pool ++ [a]).length - PROXY_POOL_MAX = 1 := by simp [hlen]
    rw [h1, List.drop_append_of_le_length (by rw [hlen]; decide)]
  · intro ops1 addr ops2 hops r hr
    rw [poolRun_append] at hr
    set p1 := (poolRun [] ops1).1 with hp1
    have hinv : poolInv p1 := poolRun_inv [] ops1 ⟨List.nodup_nil, by simp [PROXY_POOL_MAX]⟩
    have hlen1 : (poolRun [] ops1).2.length = ops1.length := poolRun_results_length [] ops1
    simp only [poolRun, poolStep] at hr
    have hdrop : ((poolRun [] ops1).2 ++
        (none :: (poolRun (p1.erase addr) ops2).2)).drop (ops1.length + 1) =
        (poolRun (p1.erase addr) ops2).2 := by
      rw [← hlen1, ← List.drop_drop, List.drop_left, List.drop_one, List.tail_cons]
    rw [hdrop] at hr
    have hout : addr ∉ p1.erase addr := by
      intro hc
      exact absurd ((hinv.1.mem_erase_iff).mp hc).1 (by simp)
    exact (poolRun_no_reintro ops2 (p1.erase addr) addr hout hops).2 r hr

/-- Witness for C10: eviction of the oldest entry at the cap, and a
post-`reportFailure` acquire that cannot return the failed address. -/
theorem claim10_witness :
    poolInsert ["a", "b", "c", "d", "e"] "f" = ["b", "c", "d", "e", "f"] ∧
    (some "p2" : Option String) ≠ some "p1" :=
  ⟨claim10_proxy_pool.2.1 ["a", "b", "c", "d", "e"] "f" rfl (by decide),
   claim10_proxy_pool.2.2 [ProxyOp.insert "p1"] "p1" [ProxyOp.acquire true 0 (some "p2")]
      (by decide) (some "p2") (by decide)⟩

end Cantio
